import Mathlib

/-!
Verification of the callback-dependency validator (`dash/_validate.py`).

The Python source is embedded shallowly: each validation function becomes a
Lean function returning `Except PyErr Unit`, where `PyErr.verr` carries one of
the named validation errors of the source's error taxonomy and the remaining
constructors model raw Python runtime errors (IndexError and friends) that the
source can hit outside its own taxonomy.

Parts of the repository that `_validate.py` imports but that are not present
in the sources (the `dash.dependencies` wildcard tokens and dependency
equality/stringification, the component-tree traversal of
`dash.development.base_component`, and `stringify_id` from `dash._utils`) are
modelled from the specification; each such definition says so in its doc
comment.
-/

namespace Dash

/-- The wildcard tokens usable as values of a dict-shaped component id. -/
inductive Wildcard where
  | ANY
  | ALL
  | ALLSMALLER
deriving DecidableEq, Repr

/-- A scalar value of a dict-shaped component id: string, number or boolean
(numbers are modelled by `Int`). -/
inductive Scalar where
  | s (v : String)
  | i (v : Int)
  | b (v : Bool)
deriving DecidableEq, Repr

/-- A value of a dict-shaped component id: a scalar or a wildcard token. -/
inductive IdVal where
  | scalar (v : Scalar)
  | wild (w : Wildcard)
deriving DecidableEq, Repr

/-- A component id of a dependency: a literal string or a dict (modelled as an
association list, as Python dicts are ordered). -/
inductive ComponentId where
  | literal (s : String)
  | pattern (m : List (String × IdVal))
deriving DecidableEq, Repr

/-- A callback dependency: component id plus property name.  The kind
(Output / Input / State) is carried separately, as in the source where it is
the class of the argument. -/
structure Dependency where
  component_id : ComponentId
  component_property : String
deriving DecidableEq, Repr

/-- The dependency kinds. -/
inductive DepKind where
  | output
  | input
  | state
deriving DecidableEq, Repr

/-- Modelled from the spec: each dependency kind declares which wildcard
tokens it permits in dict ids (`dash.dependencies` is not among the sources).
Output permits ANY and ALL; Input and State additionally permit ALLSMALLER. -/
def allowed_wildcards : DepKind → List Wildcard
  | .output => [.ANY, .ALL]
  | .input => [.ANY, .ALL, .ALLSMALLER]
  | .state => [.ANY, .ALL, .ALLSMALLER]

/-- First value bound to key `k` in an association-list dict. -/
def lookupVal (m : List (String × IdVal)) (k : String) : Option IdVal :=
  (m.find? (fun kv => kv.1 == k)).map Prod.snd

/-- Whether an id value is a wildcard token. -/
def isWild : IdVal → Bool
  | .wild _ => true
  | .scalar _ => false

/-- Whether an id value is a scalar. -/
def isScalarVal : IdVal → Bool
  | .scalar _ => true
  | .wild _ => false

/-- Python's `v in wildcards` for an id value against a token list. -/
def idValInWildcards : IdVal → List Wildcard → Bool
  | .wild w, ws => ws.contains w
  | .scalar _, _ => false

/-- The keys of a dict. -/
def patternKeys (m : List (String × IdVal)) : List String := m.map Prod.fst

/-- Modelled from the spec: equality of two component ids as defined by
`dash.dependencies` (not among the sources).  String ids are equal exactly
when the strings are; dict ids are equal when for every key present in either
dict, both dicts bind the key and the two values are equal or at least one of
them is a wildcard token; a string id never equals a dict id. -/
def idMatches : ComponentId → ComponentId → Bool
  | .literal a, .literal b => a == b
  | .pattern m, .pattern n =>
      (patternKeys m ++ patternKeys n).all fun k =>
        match lookupVal m k, lookupVal n k with
        | some v, some w => v == w || isWild v || isWild w
        | _, _ => false
  | .literal _, .pattern _ => false
  | .pattern _, .literal _ => false

/-- Modelled from the spec: dependency equality (`==` of `dash.dependencies`,
not among the sources): same property and matching ids.  Overlapping but
different wildcard ids compare as equal, so this equality is coarser than
string-representation identity. -/
def depEq (a b : Dependency) : Bool :=
  a.component_property == b.component_property
    && idMatches a.component_id b.component_id

/-- Lexicographic comparison of character lists by code point. -/
def charListLt : List Char → List Char → Bool
  | [], [] => false
  | [], _ :: _ => true
  | _ :: _, [] => false
  | a :: as, b :: bs =>
      if a.toNat < b.toNat then true
      else if b.toNat < a.toNat then false
      else charListLt as bs

/-- Lexicographic string comparison. -/
def strLtB (s t : String) : Bool := charListLt s.toList t.toList

/-- Python's `c in s` for a character and a string. -/
def strContainsChar (s : String) (c : Char) : Bool := s.toList.contains c

/-- Python's `s.startswith(w)`. -/
def strStartsWith (s w : String) : Bool := w.toList.isPrefixOf s.toList

/-- Insert a string into a list sorted in increasing order. -/
def insertSorted (s : String) : List String → List String
  | [] => [s]
  | t :: ts => if strLtB s t then s :: t :: ts else t :: insertSorted s ts

/-- Sort a list of strings in increasing order (insertion sort). -/
def sortStrings : List String → List String
  | [] => []
  | s :: ss => insertSorted s (sortStrings ss)

/-- Rendering of a scalar id value. -/
def scalarStr : Scalar → String
  | .s v => "\"" ++ v ++ "\""
  | .i v => toString v
  | .b true => "true"
  | .b false => "false"

/-- Rendering of an id value; wildcard tokens render distinctly from every
scalar. -/
def idValStr : IdVal → String
  | .scalar v => scalarStr v
  | .wild .ANY => "[\"MATCH\"]"
  | .wild .ALL => "[\"ALL\"]"
  | .wild .ALLSMALLER => "[\"ALLSMALLER\"]"

/-- Rendering of a dict id with keys in sorted order, as the source's
JSON-style stringification does. -/
def patternIdStr (m : List (String × IdVal)) : String :=
  "\x7b"
    ++ String.intercalate ","
        ((sortStrings (patternKeys m)).map fun k =>
          "\"" ++ k ++ "\":" ++ (match lookupVal m k with
            | some v => idValStr v
            | none => ""))
    ++ "\x7d"

/-- Modelled from the spec: the string representation of a component id
(`component_id_str` of `dash.dependencies`, not among the sources). -/
def component_id_str : ComponentId → String
  | .literal s => s
  | .pattern m => patternIdStr m

/-- Modelled from the spec: `str(dependency)`, the authority for "truly
identical" checks: `<id string>.<property>`. -/
def depStr (d : Dependency) : String :=
  component_id_str d.component_id ++ "." ++ d.component_property

/-- The named validation errors: message forms for `DuplicateCallbackOutput`. -/
inductive DupForm where
  | sameOutput
  | overlapWildcards
  | genericAlreadyUsed
  | singleAlreadyAssigned
deriving DecidableEq, Repr

/-- Message forms for `SameInputOutput`. -/
inductive SioForm where
  | exact
  | overlap
deriving DecidableEq, Repr

/-- Message forms for `InvalidCallbackReturnValue`. -/
inductive RetForm where
  | notListTop
  | wrongLength
  | groupedNotList
  | groupedWrongLength
  | directed
  | genericJson
deriving DecidableEq, Repr

/-- The named validation error taxonomy of `dash.exceptions`; constructors
carry the message form where the source distinguishes user-facing messages. -/
inductive VErr where
  | LayoutIsNotDefined
  | MissingInputs
  | IncorrectType
  | NonExistentEvent
  | InvalidComponentId
  | NonExistentId
  | NonExistentProp
  | DuplicateCallbackOutput (form : DupForm)
  | SameInputOutput (form : SioForm)
  | InconsistentCallbackWildcards
  | InvalidCallbackReturnValue (form : RetForm)
  | DuplicateIdError
  | NoLayout
deriving DecidableEq, Repr

/-- The result of a Python validation function: a named validation error, or a
raw Python runtime error escaping the taxonomy. -/
inductive PyErr where
  | verr (e : VErr)
  | indexError
  | typeError
  | keyError
deriving DecidableEq, Repr

/-- Sequencing of two validation steps: the second runs only when the first
raised nothing. -/
def exSeq (a b : Except PyErr Unit) : Except PyErr Unit :=
  match a with
  | .ok _ => b
  | .error e => .error e

/-- `get_wildcard_keys` (source lines 480-484): the set of keys of a dict id
whose value is one of the given wildcard tokens; the empty set for a string
id. -/
def get_wildcard_keys (dep : Dependency) (wildcards : List Wildcard) : Finset String :=
  match dep.component_id with
  | .literal _ => ∅
  | .pattern m =>
      ((m.filter fun kv => idValInWildcards kv.2 wildcards).map Prod.fst).toFinset

/-- `prevent_inconsistent_wildcards` (source lines 180-211): the ANY-keys of
every output must equal those of the first output, and the ANY/ALLSMALLER
keys of every input and state item must be contained in them.  On an empty
output list the source's `outputs[0]` raises a raw IndexError. -/
def prevent_inconsistent_wildcards (outputs inputs state : List Dependency) :
    Except PyErr Unit :=
  match outputs with
  | [] => .error .indexError
  | out0 :: rest =>
      let any_keys := get_wildcard_keys out0 [.ANY]
      if rest.all fun out => decide (get_wildcard_keys out [.ANY] = any_keys) then
        if (inputs ++ state).all fun dep =>
            decide (get_wildcard_keys dep [.ANY, .ALLSMALLER] \ any_keys = ∅) then
          .ok ()
        else .error (.verr .InconsistentCallbackWildcards)
      else .error (.verr .InconsistentCallbackWildcards)

/-! ## Layout tree

Modelled from the spec: the component tree of
`dash.development.base_component` is not among the sources; the spec describes
it as a tree of components, each with an optional id (string or dict of
scalars), declared property names, declared wildcard-property name starts, and
a depth-first traversal yielding every descendant exactly once. -/

/-- A concrete component id in the layout: a string or a dict of scalars. -/
inductive ConcreteId where
  | str (s : String)
  | dict (m : List (String × Scalar))
deriving DecidableEq, Repr

/-- A layout component: optional id, declared properties, declared
wildcard-property name starts. -/
structure LComp where
  id : Option ConcreteId
  available_properties : List String
  available_wildcard_properties : List String
deriving DecidableEq, Repr

/-- The layout tree: a component with nested children. -/
inductive LTree where
  | node (comp : LComp) (children : List LTree)

/-- The component at the root of a subtree. -/
def LTree.comp : LTree → LComp
  | .node c _ => c

mutual

/-- Modelled from the spec: `Component._traverse`, the depth-first traversal
yielding every proper descendant subtree exactly once (the root itself is not
yielded, which is why the source checks the root id separately). -/
def LTree.traverse : LTree → List LTree
  | .node _ children => traverseList children

/-- Traversal of a list of subtrees: each subtree followed by its
descendants. -/
def traverseList : List LTree → List LTree
  | [] => []
  | t :: ts => t :: t.traverse ++ traverseList ts

end

/-- The string id of a component, if it has one. -/
def compStringId (c : LComp) : Option String :=
  match c.id with
  | some (.str s) => some s
  | _ => none

/-- Modelled from the spec: Python's `id in component` membership capability:
some proper descendant has string id `s`. -/
def layoutContains (t : LTree) (s : String) : Bool :=
  t.traverse.any fun d => compStringId d.comp == some s

/-- Modelled from the spec: Python's `component[id]` lookup capability: the
first proper descendant with string id `s`. -/
def layoutLookup (t : LTree) (s : String) : Option LComp :=
  (t.traverse.find? fun d => compStringId d.comp == some s).map LTree.comp

/-- Rendering of a dict-shaped concrete id with keys in sorted order. -/
def concreteDictStr (m : List (String × Scalar)) : String :=
  "\x7b"
    ++ String.intercalate ","
        ((sortStrings (m.map Prod.fst)).map fun k =>
          "\"" ++ k ++ "\":"
            ++ (match (m.find? fun kv => kv.1 == k).map Prod.snd with
              | some v => scalarStr v
              | none => ""))
    ++ "\x7d"

/-- Modelled from the spec: `stringify_id` of `dash._utils` (not among the
sources): a string id is itself, a dict id is rendered with sorted keys, and a
missing id stringifies to the empty (falsy) value. -/
def stringify_id : Option ConcreteId → String
  | none => ""
  | some (.str s) => s
  | some (.dict m) => concreteDictStr m

/-! ## Per-dependency shape and id checks -/

/-- `validate_prop_for_component` (source lines 304-319): the property must be
among the component's declared properties or start with one of its declared
wildcard-property name starts. -/
def validate_prop_for_component (arg : Dependency) (component : LComp) :
    Except PyErr Unit :=
  if component.available_properties.contains arg.component_property
      || component.available_wildcard_properties.any
          (fun w => strStartsWith arg.component_property w) then
    .ok ()
  else .error (.verr .NonExistentProp)

/-- The characters forbidden in string ids (source line 268). -/
def invalid_chars : List Char := ['.', '\x7b']

/-- `validate_id_string` (source lines 265-301).  The forbidden-character
check runs before and regardless of `validate_ids`; the existence and property
checks run only when `validate_ids` is set.  Called only on string ids; a
`None` layout under `validate_ids` would raise a raw TypeError in Python. -/
def validate_id_string (arg : Dependency) (layout : Option LTree)
    (validate_ids : Bool) : Except PyErr Unit :=
  match arg.component_id with
  | .pattern _ => .error .typeError
  | .literal arg_id =>
      let invalid_found := invalid_chars.filter fun c => strContainsChar arg_id c
      if !invalid_found.isEmpty then .error (.verr .InvalidComponentId)
      else if validate_ids then
        match layout with
        | none => .error .typeError
        | some lt =>
            let topMatch := lt.comp.id == some (.str arg_id)
            if !layoutContains lt arg_id && !topMatch then
              .error (.verr .NonExistentId)
            else
              match (if topMatch then some lt.comp else layoutLookup lt arg_id) with
              | some component => validate_prop_for_component arg component
              | none => .error .keyError
      else .ok ()

/-- Python's `v == c_id.get(k)`: an id value against an optional scalar; a
wildcard never equals a scalar, and nothing equals a missing value. -/
def idValEqConcrete : IdVal → Option Scalar → Bool
  | .scalar v, some w => v == w
  | _, _ => false

/-- `id_match` (source lines 217-222) applied to the subtree rooted at a
candidate component: the candidate id must be a dict and every pattern entry
`(k, v)` must satisfy `(k in c and v in wildcards) or v == c_id.get(k)`
(Python operator precedence), where `k in c` is subtree membership. -/
def id_match (arg_id : List (String × IdVal)) (wildcards : List Wildcard)
    (t : LTree) : Bool :=
  match t.comp.id with
  | some (.dict c_id) =>
      arg_id.all fun kv =>
        (layoutContains t kv.1 && idValInWildcards kv.2 wildcards)
          || idValEqConcrete kv.2 ((c_id.find? fun e => e.1 == kv.1).map Prod.snd)
  | _ => false

/-- The key/value loop of `validate_id_dict` (source lines 240-262): keys must
be non-empty strings, values must be wildcards allowed for the kind or
scalars. -/
def dict_kv_check (wildcards : List Wildcard) :
    List (String × IdVal) → Except PyErr Unit
  | [] => .ok ()
  | (k, v) :: rest =>
      if k == "" then .error (.verr .IncorrectType)
      else if !(idValInWildcards v wildcards || isScalarVal v) then
        .error (.verr .IncorrectType)
      else dict_kv_check wildcards rest

/-- `validate_id_dict` (source lines 214-262): when `validate_ids` is set,
scan for a first matching component (root first, then the traversal) and check
the property against it if found (no match is not an error); then run the
key/value checks.  Called only on dict ids. -/
def validate_id_dict (arg : Dependency) (layout : Option LTree)
    (validate_ids : Bool) (wildcards : List Wildcard) : Except PyErr Unit :=
  match arg.component_id with
  | .literal _ => .error .typeError
  | .pattern arg_id =>
      exSeq
        (if validate_ids then
          match layout with
          | none => .error .typeError
          | some lt =>
              let component :=
                if id_match arg_id wildcards lt then some lt.comp
                else (lt.traverse.find? fun c => id_match arg_id wildcards c).map
                  LTree.comp
              match component with
              | some c => validate_prop_for_component arg c
              | none => .ok ()
        else .ok ())
        (dict_kv_check wildcards arg_id)

/-- `validate_callback_args` (source lines 48-100) restricted to one kind: in
the typed embedding the runtime `isinstance` checks on the collection, the
elements and `component_property` cannot fail and the legacy `component_event`
attribute is unrepresentable, so the body dispatches each element on the shape
of its component id. -/
def validate_callback_args (args : List Dependency) (kind : DepKind)
    (layout : Option LTree) (validate_ids : Bool) : Except PyErr Unit :=
  match args with
  | [] => .ok ()
  | arg :: rest =>
      exSeq
        (match arg.component_id with
          | .pattern _ =>
              validate_id_dict arg layout validate_ids (allowed_wildcards kind)
          | .literal _ => validate_id_string arg layout validate_ids)
        (validate_callback_args rest kind layout validate_ids)

/-! ## Duplicate outputs and input/output overlap -/

/-- The error raised for an equal pair of declared outputs (source lines
106-123): one message when the string representations coincide, another for
distinct-but-overlapping wildcard outputs. -/
def dup_pair_error (out out2 : Dependency) : PyErr :=
  if depStr out == depStr out2 then .verr (.DuplicateCallbackOutput .sameOutput)
  else .verr (.DuplicateCallbackOutput .overlapWildcards)

/-- The pairwise loop of `prevent_duplicate_outputs` (source lines 104-123):
raise on the first pair of declared outputs comparing equal. -/
def pairwise_dup_check : List Dependency → Except PyErr Unit
  | [] => .ok ()
  | out :: rest =>
      match rest.find? fun out2 => depEq out out2 with
      | some out2 => .error (dup_pair_error out out2)
      | none => pairwise_dup_check rest

/-- Python's `set.add`: append the string unless already present. -/
def add_dup (s : String) (dups : List String) : List String :=
  if dups.contains s then dups else dups ++ [s]

/-- The inner loop collecting `str(used_out)` for every registered output
equal to a given declared output (source lines 126-129). -/
def dups_for_out (out : Dependency) : List Dependency → List String → List String
  | [], dups => dups
  | u :: us, dups =>
      dups_for_out out us (if depEq out u then add_dup (depStr u) dups else dups)

/-- The outer loop of the registered-output scan (source lines 125-129). -/
def collect_dups (used_outputs : List Dependency) :
    List Dependency → List String → List String
  | [], dups => dups
  | out :: rest, dups => collect_dups used_outputs rest (dups_for_out out used_outputs dups)

/-- The set `dups` of source lines 125-129, as a duplicate-free list. -/
def dupsList (used_outputs outputs : List Dependency) : List String :=
  collect_dups used_outputs outputs []

/-- The application state seen by the validator: the opt-out flag and the
registered-output registry. -/
structure AppState where
  suppress_callback_exceptions : Bool
  used_outputs : List Dependency

/-- The registered-output phase of `prevent_duplicate_outputs` (source lines
125-157): if any declared output equals a registered one, raise; the
single-output message is used only when the declared list and the collected
set both have one element and the string representations coincide, otherwise
the generic two-block message. -/
def used_outputs_check (app : AppState) (outputs : List Dependency) :
    Except PyErr Unit :=
  let dups := dupsList app.used_outputs outputs
  if dups.isEmpty then .ok ()
  else if outputs.length > 1 || dups.length > 1
      || ((outputs.map depStr)[0]? != dups[0]?) then
    .error (.verr (.DuplicateCallbackOutput .genericAlreadyUsed))
  else .error (.verr (.DuplicateCallbackOutput .singleAlreadyAssigned))

/-- `prevent_duplicate_outputs` (source lines 103-157): the pairwise check
followed by the registered-output check. -/
def prevent_duplicate_outputs (app : AppState) (outputs : List Dependency) :
    Except PyErr Unit :=
  exSeq (pairwise_dup_check outputs) (used_outputs_check app outputs)

/-- The error raised for an input equal to an output (source lines 164-177). -/
def sio_error (out in_ : Dependency) : PyErr :=
  if depStr out == depStr in_ then .verr (.SameInputOutput .exact)
  else .verr (.SameInputOutput .overlap)

/-- `prevent_input_output_overlap` (source lines 160-177): raise on the first
input comparing equal to a declared output. -/
def prevent_input_output_overlap :
    List Dependency → List Dependency → Except PyErr Unit
  | [], _ => .ok ()
  | in_ :: rest, outputs =>
      match outputs.find? fun out => depEq out in_ with
      | some out => .error (sio_error out in_)
      | none => prevent_input_output_overlap rest outputs

/-! ## The top-level registration validator -/

/-- The `output` argument of `validate_callback`: a single output or a
list/tuple of outputs. -/
inductive OutputArg where
  | single (d : Dependency)
  | multi (ds : List Dependency)

/-- `validate_callback` (source lines 10-45): precondition checks, then the
per-dependency argument checks for outputs, inputs and state, then the
duplicate, overlap and wildcard-consistency checks. -/
def validate_callback (app : AppState) (layout : Option LTree)
    (output : OutputArg) (inputs state : List Dependency) : Except PyErr Unit :=
  let validate_ids := ! app.suppress_callback_exceptions
  if layout.isNone && validate_ids then .error (.verr .LayoutIsNotDefined)
  else if inputs.isEmpty then .error (.verr .MissingInputs)
  else
    let outputs := match output with
      | .single d => [d]
      | .multi ds => ds
    exSeq (validate_callback_args outputs .output layout validate_ids)
      (exSeq (validate_callback_args inputs .input layout validate_ids)
        (exSeq (validate_callback_args state .state layout validate_ids)
          (exSeq (prevent_duplicate_outputs app outputs)
            (exSeq (prevent_input_output_overlap inputs outputs)
              (prevent_inconsistent_wildcards outputs inputs state)))))

/-! ## Return values -/

/-- A Python value as seen by the return-value validators: strings, numbers
(modelled by `Int`; Python `bool` is a subclass of `int` and is likewise
JSON-valid), `None`, dicts, lists, tuples, components (with their `children`
property) and values of any other, non-serializable type. -/
inductive PyVal where
  | pstr (s : String)
  | pint (n : Int)
  | pbool (b : Bool)
  | pnone
  | pdict (entries : List (String × PyVal))
  | plist (xs : List PyVal)
  | ptuple (xs : List PyVal)
  | comp (id : Option String) (children : Option PyVal)
  | other (tyName : String)

/-- Python `isinstance(v, (list, tuple))`, returning the elements. -/
def pyIsSeq : PyVal → Option (List PyVal)
  | .plist xs => some xs
  | .ptuple xs => some xs
  | _ => none

/-- A positional element of the declared `outputs_list` of a multi-output
callback: a single output spec or a grouped (list) output. -/
inductive OutItem where
  | single (d : Dependency)
  | grouped (ds : List Dependency)

/-- The positional loop of `validate_multi_return` (source lines 344-366),
with the returned elements aligned to the declared items: a grouped declared
item requires a list/tuple element of exactly its length. -/
def multi_return_items : List OutItem → List PyVal → Except PyErr Unit
  | [], _ => .ok ()
  | _ :: _, [] => .ok ()
  | .single _ :: rest, _ :: vrest => multi_return_items rest vrest
  | .grouped ds :: rest, v :: vrest =>
      match pyIsSeq v with
      | none => .error (.verr (.InvalidCallbackReturnValue .groupedNotList))
      | some ws =>
          if ws.length != ds.length then
            .error (.verr (.InvalidCallbackReturnValue .groupedWrongLength))
          else multi_return_items rest vrest

/-- `validate_multi_return` (source lines 322-366): the returned value must be
a list or tuple of the declared length, and each element aligned with a
grouped declared output must itself be a list or tuple of the group's
length. -/
def validate_multi_return (outputs_list : List OutItem) (output_value : PyVal)
    (_callback_id : String) : Except PyErr Unit :=
  match pyIsSeq output_value with
  | none => .error (.verr (.InvalidCallbackReturnValue .notListTop))
  | some vs =>
      if vs.length != outputs_list.length then
        .error (.verr (.InvalidCallbackReturnValue .wrongLength))
      else multi_return_items outputs_list vs

/-- `_value_is_valid` of `fail_callback_output` (source lines 370, 415-416):
strings, dicts, ints, floats, `None` and components are allowed (`bool` is an
`int` in Python); lists, tuples and other types are not. -/
def value_is_valid : PyVal → Bool
  | .pstr _ => true
  | .pint _ => true
  | .pbool _ => true
  | .pnone => true
  | .pdict _ => true
  | .comp _ _ => true
  | .plist _ => false
  | .ptuple _ => false
  | .other _ => false

/-- Python truthiness of a value (the source's `if child:` guard).  Values of
non-builtin types are modelled as truthy, their default. -/
def pyTruthy : PyVal → Bool
  | .pstr s => s != ""
  | .pint n => n != 0
  | .pbool b => b
  | .pnone => false
  | .pdict m => !m.isEmpty
  | .plist xs => !xs.isEmpty
  | .ptuple xs => !xs.isEmpty
  | .comp _ _ => true
  | .other _ => true

/-- Python `getattr(v, "children", None)`. -/
def childrenOf : PyVal → PyVal
  | .comp _ (some c) => c
  | _ => .pnone

/-- Python `isinstance(v, (tuple, MutableSequence))`. -/
def isListOrTuple : PyVal → Bool
  | .plist _ => true
  | .ptuple _ => true
  | _ => false

mutual

/-- Modelled from the spec: `Component._traverse_with_paths` (the tree
traversal capability of the excluded component base class): yields every value
reachable through `children`, each with a path, recursing into components. -/
def traverse_with_paths : PyVal → List (String × PyVal)
  | .comp _ (some (.plist xs)) => twp_list xs
  | .comp _ (some (.ptuple xs)) => twp_list xs
  | .comp _ (some ch) => ("children", ch) :: traverse_with_paths ch
  | _ => []

/-- Traversal of the elements of a `children` list. -/
def twp_list : List PyVal → List (String × PyVal)
  | [] => []
  | x :: xs => ("children", x) :: (traverse_with_paths x ++ twp_list xs)

end

/-- The child check of `_validate_value` (source lines 429-437 and 440-448):
a `children` value that is not a tuple or mutable sequence, is truthy, and
fails the value grammar, triggers the directed error. -/
def bad_child (j : PyVal) : Bool :=
  let child := childrenOf j
  !isListOrTuple child && pyTruthy child && !value_is_valid child

/-- `_validate_value` (source lines 418-458) reduced to whether it raises the
directed error: a component raises if its traversal meets an invalid value or
a bad `children` value (its own `children` included); any other value raises
exactly when it fails the value grammar. -/
def validate_value (val : PyVal) : Bool :=
  match val with
  | .comp i ch =>
      (traverse_with_paths (.comp i ch)).any
          (fun pj => !value_is_valid pj.2 || bad_child pj.2)
        || bad_child (.comp i ch)
  | v => !value_is_valid v

/-- Whether `fail_callback_output` raises the directed message: a returned
list is checked element by element, anything else as a single value (source
lines 460-464; a returned tuple is not treated as a list here). -/
def fail_raised (output_value : PyVal) : Bool :=
  match output_value with
  | .plist xs => xs.any validate_value
  | v => validate_value v

/-- `fail_callback_output` (source lines 369-477): raise the directed
`InvalidCallbackReturnValue` at the first invalid value the traversal finds,
and otherwise fall through to the generic "not JSON serializable" raise at the
end of the function; it never returns normally. -/
def fail_callback_output (output_value : PyVal) (_output : Dependency) :
    Except PyErr Unit :=
  if fail_raised output_value then
    .error (.verr (.InvalidCallbackReturnValue .directed))
  else .error (.verr (.InvalidCallbackReturnValue .genericJson))

/-! ## Layout validation -/

/-- The traversal loop of `validate_layout` (source lines 557-568) over the
stringified ids of the traversed components, carrying the set of ids already
seen: a truthy id already seen raises `DuplicateIdError`; every id, truthy or
not, is then added to the set. -/
def check_duplicate_ids : List String → List String → Except PyErr Unit
  | [], _ => .ok ()
  | cid :: rest, seen =>
      if cid != "" && seen.contains cid then .error (.verr .DuplicateIdError)
      else check_duplicate_ids rest (cid :: seen)

/-- `validate_layout` (source lines 545-568): a `None` layout raises
`NoLayout`; otherwise the root's stringified id (when truthy) seeds the seen
set and the full traversal is scanned for a duplicated truthy id. -/
def validate_layout (layout : Option LTree) (layout_value : LTree) :
    Except PyErr Unit :=
  match layout with
  | none => .error (.verr .NoLayout)
  | some _ =>
      let layout_id := stringify_id layout_value.comp.id
      let init := if layout_id != "" then [layout_id] else []
      check_duplicate_ids
        (layout_value.traverse.map fun c => stringify_id c.comp.id) init

/-- The id sequence the duplicate-id claim quantifies over: the root's
stringified id followed by the stringified ids of the full traversal. -/
def layout_id_sequence (t : LTree) : List String :=
  stringify_id t.comp.id :: (t.traverse.map fun c => stringify_id c.comp.id)

/-- Stated from the spec's words: no non-empty string identity occurs at two
different positions of the id sequence. -/
def spec_no_duplicate_ids (t : LTree) : Prop :=
  ((layout_id_sequence t).filter fun s => s != "").Nodup

/-! ## Helper lemmas -/

theorem exSeq_ok (b : Except PyErr Unit) : exSeq (.ok ()) b = b := rfl

theorem exSeq_error (e : PyErr) (b : Except PyErr Unit) :
    exSeq (.error e) b = .error e := rfl

theorem exSeq_eq_ok {a b : Except PyErr Unit} :
    exSeq a b = .ok () ↔ a = .ok () ∧ b = .ok () := by
  cases a with
  | ok u => cases u; simp [exSeq]
  | error e => simp [exSeq]

/-- Membership in a wildcard-key set comes only from an entry whose value is
one of the requested tokens. -/
theorem wildcard_key_mem {d : Dependency} {k : String} {ws : List Wildcard}
    (h : k ∈ get_wildcard_keys d ws) :
    ∃ m, d.component_id = .pattern m ∧ ∃ w, w ∈ ws ∧ (k, IdVal.wild w) ∈ m := by
  unfold get_wildcard_keys at h
  match hc : d.component_id with
  | .literal s => rw [hc] at h; simp at h
  | .pattern m =>
      rw [hc] at h
      simp only [List.mem_toFinset, List.mem_map] at h
      obtain ⟨kv, hkv, hk⟩ := h
      rw [List.mem_filter] at hkv
      obtain ⟨hmem, hwild⟩ := hkv
      match kv, hwild, hk, hmem with
      | (k1, .wild w), hw, hk, hmem =>
          obtain rfl : k1 = k := hk
          refine ⟨m, rfl, w, ?_, hmem⟩
          simpa [idValInWildcards, List.contains_iff_exists_mem_beq,
            beq_iff_eq] using hw

/-- Unfolding of `prevent_inconsistent_wildcards` on a non-empty output
list. -/
theorem prevent_inconsistent_wildcards_cons (out0 : Dependency)
    (rest inputs state : List Dependency) :
    prevent_inconsistent_wildcards (out0 :: rest) inputs state =
      (if rest.all fun out =>
          decide (get_wildcard_keys out [.ANY] = get_wildcard_keys out0 [.ANY])
        then
        (if (inputs ++ state).all fun dep =>
            decide (get_wildcard_keys dep [.ANY, .ALLSMALLER] \
              get_wildcard_keys out0 [.ANY] = ∅) then
          .ok ()
        else .error (.verr .InconsistentCallbackWildcards))
      else .error (.verr .InconsistentCallbackWildcards)) := rfl

/-! ## Claim C1: wildcard consistency -/

/-- Claim C1: With a non-empty declared output list, the wildcard-consistency
step passes exactly when every later output's ANY-key set equals the first
output's and every input and state dependency's ANY/ALLSMALLER-key set is
contained in it; any failure of this step is `InconsistentCallbackWildcards`;
and a key whose value is the `ALL` wildcard never enters either key set, so it
is ignored by the check. -/
theorem claim1_wildcard_consistency (out0 : Dependency)
    (rest inputs state : List Dependency) :
    (prevent_inconsistent_wildcards (out0 :: rest) inputs state = .ok () ↔
      (∀ out ∈ rest,
        get_wildcard_keys out [.ANY] = get_wildcard_keys out0 [.ANY]) ∧
      (∀ dep ∈ inputs ++ state,
        get_wildcard_keys dep [.ANY, .ALLSMALLER] ⊆
          get_wildcard_keys out0 [.ANY]))
    ∧ (∀ e, prevent_inconsistent_wildcards (out0 :: rest) inputs state
          = .error e → e = .verr .InconsistentCallbackWildcards)
    ∧ (∀ d : Dependency, ∀ k : String,
        (k ∈ get_wildcard_keys d [.ANY] →
          ∃ m, d.component_id = .pattern m ∧ (k, IdVal.wild .ANY) ∈ m) ∧
        (k ∈ get_wildcard_keys d [.ANY, .ALLSMALLER] →
          ∃ m, d.component_id = .pattern m ∧
            ((k, IdVal.wild .ANY) ∈ m ∨ (k, IdVal.wild .ALLSMALLER) ∈ m))) := by
  refine ⟨?_, ?_, ?_⟩
  · rw [prevent_inconsistent_wildcards_cons]
    constructor
    · intro h
      by_cases hA : (rest.all fun out =>
          decide (get_wildcard_keys out [.ANY] = get_wildcard_keys out0 [.ANY]))
          = true
      · by_cases hB : ((inputs ++ state).all fun dep =>
            decide (get_wildcard_keys dep [.ANY, .ALLSMALLER] \
              get_wildcard_keys out0 [.ANY] = ∅)) = true
        · refine ⟨?_, ?_⟩
          · intro out hout
            exact of_decide_eq_true (List.all_eq_true.mp hA out hout)
          · intro dep hdep
            exact Finset.sdiff_eq_empty_iff_subset.mp
              (of_decide_eq_true (List.all_eq_true.mp hB dep hdep))
        · rw [if_pos hA, if_neg hB] at h
          exact absurd h (by simp)
      · rw [if_neg hA] at h
        exact absurd h (by simp)
    · rintro ⟨h1, h2⟩
      have hA : (rest.all fun out =>
          decide (get_wildcard_keys out [.ANY] = get_wildcard_keys out0 [.ANY]))
          = true :=
        List.all_eq_true.mpr fun out hout => decide_eq_true (h1 out hout)
      have hB : ((inputs ++ state).all fun dep =>
          decide (get_wildcard_keys dep [.ANY, .ALLSMALLER] \
            get_wildcard_keys out0 [.ANY] = ∅)) = true :=
        List.all_eq_true.mpr fun dep hdep =>
          decide_eq_true (Finset.sdiff_eq_empty_iff_subset.mpr (h2 dep hdep))
      rw [if_pos hA, if_pos hB]
  · intro e h
    rw [prevent_inconsistent_wildcards_cons] at h
    by_cases hA : (rest.all fun out =>
        decide (get_wildcard_keys out [.ANY] = get_wildcard_keys out0 [.ANY]))
        = true
    · by_cases hB : ((inputs ++ state).all fun dep =>
          decide (get_wildcard_keys dep [.ANY, .ALLSMALLER] \
            get_wildcard_keys out0 [.ANY] = ∅)) = true
      · rw [if_pos hA, if_pos hB] at h; cases h
      · rw [if_pos hA, if_neg hB] at h
        exact (Except.error.inj h).symm
    · rw [if_neg hA] at h
      exact (Except.error.inj h).symm
  · intro d k
    constructor
    · intro h
      obtain ⟨m, hm, w, hw, hmem⟩ := wildcard_key_mem h
      match w, hw with
      | .ANY, _ => exact ⟨m, hm, hmem⟩
      | .ALL, hw => simp at hw
      | .ALLSMALLER, hw => simp at hw
    · intro h
      obtain ⟨m, hm, w, hw, hmem⟩ := wildcard_key_mem h
      match w, hw with
      | .ANY, _ => exact ⟨m, hm, .inl hmem⟩
      | .ALLSMALLER, _ => exact ⟨m, hm, .inr hmem⟩
      | .ALL, hw => simp at hw

/-! ## Claim C2: pairwise duplicate outputs -/

theorem pairwise_dup_check_ok_iff (outputs : List Dependency) :
    pairwise_dup_check outputs = .ok () ↔
      List.Pairwise (fun a b => depEq a b = false) outputs := by
  induction outputs with
  | nil => simp [pairwise_dup_check]
  | cons out rest ih =>
      cases hf : rest.find? fun out2 => depEq out out2 with
      | some out2 =>
          simp only [pairwise_dup_check, hf, List.pairwise_cons]
          constructor
          · intro h; cases h
          · rintro ⟨h1, _⟩
            have hp := List.find?_some hf
            have := h1 out2 (List.mem_of_find?_eq_some hf)
            rw [this] at hp
            cases hp
      | none =>
          simp only [pairwise_dup_check, hf]
          rw [ih, List.pairwise_cons]
          constructor
          · intro h
            refine ⟨fun b hb => ?_, h⟩
            have := List.find?_eq_none.mp hf b hb
            simpa using this
          · exact And.right

theorem pairwise_dup_check_error (outputs : List Dependency) :
    ∀ e, pairwise_dup_check outputs = .error e →
      ∃ a b l1 l2 l3, outputs = l1 ++ a :: (l2 ++ b :: l3) ∧
        depEq a b = true ∧ e = dup_pair_error a b := by
  induction outputs with
  | nil => intro e h; simp [pairwise_dup_check] at h
  | cons out rest ih =>
      intro e h
      cases hf : rest.find? fun out2 => depEq out out2 with
      | some out2 =>
          simp only [pairwise_dup_check, hf] at h
          obtain ⟨l2, l3, hsplit⟩ :=
            List.append_of_mem (List.mem_of_find?_eq_some hf)
          exact ⟨out, out2, [], l2, l3, by simp [hsplit],
            by simpa using List.find?_some hf, (Except.error.inj h).symm⟩
      | none =>
          simp only [pairwise_dup_check, hf] at h
          obtain ⟨a, b, l1, l2, l3, hsplit, hdep, he⟩ := ih e h
          exact ⟨a, b, out :: l1, l2, l3, by simp [hsplit], hdep, he⟩

theorem dup_pair_error_forms (a b : Dependency) :
    (depStr a = depStr b →
      dup_pair_error a b = .verr (.DuplicateCallbackOutput .sameOutput)) ∧
    (depStr a ≠ depStr b →
      dup_pair_error a b = .verr (.DuplicateCallbackOutput .overlapWildcards)) := by
  unfold dup_pair_error
  constructor
  · intro h
    rw [if_pos (beq_iff_eq.mpr h)]
  · intro h
    rw [if_neg (by simpa [beq_iff_eq] using h)]

/-- Claim C2: The pairwise phase of `prevent_duplicate_outputs` passes exactly
when no two declared outputs at distinct positions compare equal; any error it
raises is a `DuplicateCallbackOutput` for some equal pair at two distinct
positions, with the message form distinguishing identical string
representations from distinct-but-overlapping ones; and an error of this phase
is the error of `prevent_duplicate_outputs`. -/
theorem claim2_pairwise_duplicate_outputs (outputs : List Dependency) :
    (pairwise_dup_check outputs = .ok () ↔
      List.Pairwise (fun a b => depEq a b = false) outputs)
    ∧ (∀ e, pairwise_dup_check outputs = .error e →
        ∃ a b l1 l2 l3, outputs = l1 ++ a :: (l2 ++ b :: l3) ∧
          depEq a b = true ∧ e = dup_pair_error a b)
    ∧ (∀ a b : Dependency,
        (depStr a = depStr b →
          dup_pair_error a b = .verr (.DuplicateCallbackOutput .sameOutput)) ∧
        (depStr a ≠ depStr b →
          dup_pair_error a b = .verr (.DuplicateCallbackOutput .overlapWildcards)))
    ∧ (∀ (app : AppState) (e : PyErr), pairwise_dup_check outputs = .error e →
        prevent_duplicate_outputs app outputs = .error e) := by
  refine ⟨pairwise_dup_check_ok_iff outputs, pairwise_dup_check_error outputs,
    dup_pair_error_forms, ?_⟩
  intro app e h
  unfold prevent_duplicate_outputs
  rw [h]
  rfl

/-! ## Claim C6: input/output overlap -/

theorem sio_error_forms (o i : Dependency) :
    (depStr o = depStr i →
      sio_error o i = .verr (.SameInputOutput .exact)) ∧
    (depStr o ≠ depStr i →
      sio_error o i = .verr (.SameInputOutput .overlap)) := by
  unfold sio_error
  constructor
  · intro h
    rw [if_pos (beq_iff_eq.mpr h)]
  · intro h
    rw [if_neg (by simpa [beq_iff_eq] using h)]

theorem prevent_input_output_overlap_ok_iff (inputs outputs : List Dependency) :
    prevent_input_output_overlap inputs outputs = .ok () ↔
      ∀ i ∈ inputs, ∀ o ∈ outputs, depEq o i = false := by
  induction inputs with
  | nil => simp [prevent_input_output_overlap]
  | cons in_ rest ih =>
      cases hf : outputs.find? fun out => depEq out in_ with
      | some out =>
          simp only [prevent_input_output_overlap, hf]
          constructor
          · intro h; cases h
          · intro h
            have hp := List.find?_some hf
            have := h in_ (List.mem_cons_self _ _) out (List.mem_of_find?_eq_some hf)
            rw [this] at hp
            cases hp
      | none =>
          simp only [prevent_input_output_overlap, hf]
          rw [ih]
          constructor
          · intro h i hi o ho
            rcases List.mem_cons.mp hi with rfl | hi
            · simpa using List.find?_eq_none.mp hf o ho
            · exact h i hi o ho
          · intro h i hi o ho
            exact h i (List.mem_cons_of_mem _ hi) o ho

theorem prevent_input_output_overlap_error (inputs outputs : List Dependency) :
    ∀ e, prevent_input_output_overlap inputs outputs = .error e →
      ∃ i ∈ inputs, ∃ o ∈ outputs, depEq o i = true ∧ e = sio_error o i := by
  induction inputs with
  | nil => intro e h; simp [prevent_input_output_overlap] at h
  | cons in_ rest ih =>
      intro e h
      cases hf : outputs.find? fun out => depEq out in_ with
      | some out =>
          simp only [prevent_input_output_overlap, hf] at h
          exact ⟨in_, List.mem_cons_self _ _, out, List.mem_of_find?_eq_some hf,
            by simpa using List.find?_some hf, (Except.error.inj h).symm⟩
      | none =>
          simp only [prevent_input_output_overlap, hf] at h
          obtain ⟨i, hi, o, ho, hdep, he⟩ := ih e h
          exact ⟨i, List.mem_cons_of_mem _ hi, o, ho, hdep, he⟩

/-- Claim C6: The input/output overlap check passes exactly when no input
compares equal to any declared output; any error it raises is a
`SameInputOutput` for some overlapping input/output pair, with the message
form distinguishing identical string representations from overlapping
wildcards. -/
theorem claim6_input_output_overlap (inputs outputs : List Dependency) :
    (prevent_input_output_overlap inputs outputs = .ok () ↔
      ∀ i ∈ inputs, ∀ o ∈ outputs, depEq o i = false)
    ∧ (∀ e, prevent_input_output_overlap inputs outputs = .error e →
        ∃ i ∈ inputs, ∃ o ∈ outputs, depEq o i = true ∧ e = sio_error o i)
    ∧ (∀ o i : Dependency,
        (depStr o = depStr i →
          sio_error o i = .verr (.SameInputOutput .exact)) ∧
        (depStr o ≠ depStr i →
          sio_error o i = .verr (.SameInputOutput .overlap))) :=
  ⟨prevent_input_output_overlap_ok_iff inputs outputs,
    prevent_input_output_overlap_error inputs outputs, sio_error_forms⟩

/-! ## Claim C3: overlap with the registered-output set -/

theorem mem_add_dup {x s : String} {d : List String} :
    x ∈ add_dup s d ↔ x ∈ d ∨ x = s := by
  unfold add_dup
  by_cases hc : d.contains s = true
  · have hs : s ∈ d := by
      simpa [List.contains_iff_exists_mem_beq, beq_iff_eq] using hc
    rw [if_pos hc]
    constructor
    · exact .inl
    · rintro (h | rfl)
      · exact h
      · exact hs
  · rw [if_neg hc]
    simp [List.mem_append]

theorem mem_dups_for_out (out : Dependency) (x : String) :
    ∀ (us : List Dependency) (dups : List String),
      x ∈ dups_for_out out us dups ↔
        x ∈ dups ∨ ∃ u ∈ us, depEq out u = true ∧ x = depStr u := by
  intro us
  induction us with
  | nil => intro dups; simp [dups_for_out]
  | cons u us ih =>
      intro dups
      rw [dups_for_out, ih]
      cases hd : depEq out u with
      | true =>
          simp only [if_true, mem_add_dup, List.mem_cons]
          constructor
          · rintro (⟨hx | rfl⟩ | ⟨u1, hu1, hd1, rfl⟩)
            · exact .inl hx
            · exact .inr ⟨u, .inl rfl, hd, rfl⟩
            · exact .inr ⟨u1, .inr hu1, hd1, rfl⟩
          · rintro (hx | ⟨u1, hu1 | hu1, hd1, rfl⟩)
            · exact .inl (.inl hx)
            · subst hu1; exact .inl (.inr rfl)
            · exact .inr ⟨u1, hu1, hd1, rfl⟩
      | false =>
          simp only [if_false, List.mem_cons]
          constructor
          · rintro (hx | ⟨u1, hu1, hd1, rfl⟩)
            · exact .inl hx
            · exact .inr ⟨u1, .inr hu1, hd1, rfl⟩
          · rintro (hx | ⟨u1, hu1 | hu1, hd1, rfl⟩)
            · exact .inl hx
            · subst hu1; rw [hd] at hd1; cases hd1
            · exact .inr ⟨u1, hu1, hd1, rfl⟩

theorem mem_collect_dups (used : List Dependency) (x : String) :
    ∀ (outputs : List Dependency) (dups : List String),
      x ∈ collect_dups used outputs dups ↔
        x ∈ dups ∨
          ∃ out ∈ outputs, ∃ u ∈ used, depEq out u = true ∧ x = depStr u := by
  intro outputs
  induction outputs with
  | nil => intro dups; simp [collect_dups]
  | cons out outs ih =>
      intro dups
      rw [collect_dups, ih, mem_dups_for_out]
      constructor
      · rintro (⟨hx | ⟨u, hu, hd, rfl⟩⟩ | ⟨o, ho, u, hu, hd, rfl⟩)
        · exact .inl hx
        · exact .inr ⟨out, List.mem_cons_self _ _, u, hu, hd, rfl⟩
        · exact .inr ⟨o, List.mem_cons_of_mem _ ho, u, hu, hd, rfl⟩
      · rintro (hx | ⟨o, ho, u, hu, hd, rfl⟩)
        · exact .inl (.inl hx)
        · rcases List.mem_cons.mp ho with rfl | ho
          · exact .inl (.inr ⟨u, hu, hd, rfl⟩)
          · exact .inr ⟨o, ho, u, hu, hd, rfl⟩

theorem dupsList_eq_nil_iff (used outputs : List Dependency) :
    dupsList used outputs = [] ↔
      ∀ out ∈ outputs, ∀ u ∈ used, depEq out u = false := by
  rw [List.eq_nil_iff_forall_not_mem]
  constructor
  · intro h out hout u hu
    cases hd : depEq out u with
    | false => rfl
    | true =>
        exact absurd ((mem_collect_dups used (depStr u) outputs []).mpr
          (.inr ⟨out, hout, u, hu, hd, rfl⟩)) (h (depStr u))
  · intro h x hx
    rcases (mem_collect_dups used x outputs []).mp hx with hx0 | ⟨o, ho, u, hu, hd, rfl⟩
    · simp at hx0
    · rw [h o ho u hu] at hd; cases hd

/-- Claim C3 counterexample: A single declared output can overlap a single
registered output (the collected set has one element) by wildcard overlap
rather than exact string identity: the registered-output check then reports
the generic two-block message, not the single-output "already assigned"
message, refuting the claimed "exactly when both sets have length 1". -/
theorem claim3_counterexample :
    ([(⟨.pattern [("a", .wild .ANY)], "p"⟩ : Dependency)]).length = 1 ∧
    (dupsList [⟨.pattern [("a", .scalar (.s "x"))], "p"⟩]
      [⟨.pattern [("a", .wild .ANY)], "p"⟩]).length = 1 ∧
    used_outputs_check ⟨false, [⟨.pattern [("a", .scalar (.s "x"))], "p"⟩]⟩
        [⟨.pattern [("a", .wild .ANY)], "p"⟩]
      = .error (.verr (.DuplicateCallbackOutput .genericAlreadyUsed)) :=
  ⟨rfl, rfl, rfl⟩

theorem used_outputs_check_ok_iff (app : AppState) (outputs : List Dependency) :
    used_outputs_check app outputs = .ok () ↔
      ∀ out ∈ outputs, ∀ u ∈ app.used_outputs, depEq out u = false := by
  rw [← dupsList_eq_nil_iff]
  unfold used_outputs_check
  by_cases he : (dupsList app.used_outputs outputs).isEmpty = true
  · simp only [if_pos he]
    simpa [List.isEmpty_iff] using he
  · simp only [if_neg he]
    have : dupsList app.used_outputs outputs ≠ [] := by
      simpa [List.isEmpty_iff] using he
    by_cases hc : (outputs.length > 1
        || (dupsList app.used_outputs outputs).length > 1
        || ((outputs.map depStr)[0]? != (dupsList app.used_outputs outputs)[0]?))
        = true
    · rw [if_pos hc]; simp [this]
    · rw [if_neg hc]; simp [this]

theorem used_outputs_check_cases (app : AppState) (outputs : List Dependency) :
    used_outputs_check app outputs = .ok () ∨
      used_outputs_check app outputs
        = .error (.verr (.DuplicateCallbackOutput .genericAlreadyUsed)) ∨
      used_outputs_check app outputs
        = .error (.verr (.DuplicateCallbackOutput .singleAlreadyAssigned)) := by
  unfold used_outputs_check
  by_cases he : (dupsList app.used_outputs outputs).isEmpty = true
  · rw [if_pos he]; exact .inl rfl
  · rw [if_neg he]
    by_cases hc : (outputs.length > 1
        || (dupsList app.used_outputs outputs).length > 1
        || ((outputs.map depStr)[0]? != (dupsList app.used_outputs outputs)[0]?))
        = true
    · rw [if_pos hc]; exact .inr (.inl rfl)
    · rw [if_neg hc]; exact .inr (.inr rfl)

theorem used_outputs_check_single_iff (app : AppState) (outputs : List Dependency) :
    used_outputs_check app outputs
        = .error (.verr (.DuplicateCallbackOutput .singleAlreadyAssigned)) ↔
      dupsList app.used_outputs outputs ≠ [] ∧ outputs.length = 1 ∧
        (dupsList app.used_outputs outputs).length = 1 ∧
        (outputs.map depStr)[0]? = (dupsList app.used_outputs outputs)[0]? := by
  unfold used_outputs_check
  by_cases he : (dupsList app.used_outputs outputs).isEmpty = true
  · rw [if_pos he]
    simp only [List.isEmpty_iff] at he
    simp [he]
  · rw [if_neg he]
    simp only [List.isEmpty_iff] at he
    replace he : dupsList app.used_outputs outputs ≠ [] := he
    by_cases hc : (outputs.length > 1
        || (dupsList app.used_outputs outputs).length > 1
        || ((outputs.map depStr)[0]? != (dupsList app.used_outputs outputs)[0]?))
        = true
    · rw [if_pos hc]
      simp only [Bool.or_eq_true, decide_eq_true_eq, bne_iff_ne] at hc
      constructor
      · intro h; cases h
      · rintro ⟨_, hlen, hdlen, hhead⟩
        rcases hc with (h1 | h2) | h3
        · omega
        · omega
        · exact absurd hhead h3
    · rw [if_neg hc]
      simp only [Bool.or_eq_true, decide_eq_true_eq, bne_iff_ne, not_or,
        not_lt, Classical.not_not] at hc
      obtain ⟨⟨h1, h2⟩, h3⟩ := hc
      have hout : outputs ≠ [] := by
        intro hnil
        subst hnil
        exact he rfl
      have hlen : outputs.length = 1 := by
        have := List.length_pos_of_ne_nil hout
        omega
      have hdlen : (dupsList app.used_outputs outputs).length = 1 := by
        have := List.length_pos_of_ne_nil he
        omega
      exact ⟨fun _ => ⟨he, hlen, hdlen, h3⟩, fun _ => rfl⟩

/-- Claim C3 amended: The registered-output phase of
`prevent_duplicate_outputs` passes exactly when no declared output compares
equal to a registered output; otherwise it fails with one of the two
`DuplicateCallbackOutput` message forms, and the single-output "already
assigned" form is chosen exactly when the declared output list has length 1,
the collected overlap set has length 1, **and** the declared output's string
representation equals the collected one; when the pairwise phase passes, this
phase's result is the result of `prevent_duplicate_outputs`. -/
theorem claim3_registered_duplicate_outputs (app : AppState)
    (outputs : List Dependency) :
    (used_outputs_check app outputs = .ok () ↔
      ∀ out ∈ outputs, ∀ u ∈ app.used_outputs, depEq out u = false)
    ∧ (used_outputs_check app outputs = .ok () ∨
        used_outputs_check app outputs
          = .error (.verr (.DuplicateCallbackOutput .genericAlreadyUsed)) ∨
        used_outputs_check app outputs
          = .error (.verr (.DuplicateCallbackOutput .singleAlreadyAssigned)))
    ∧ (used_outputs_check app outputs
          = .error (.verr (.DuplicateCallbackOutput .singleAlreadyAssigned)) ↔
        dupsList app.used_outputs outputs ≠ [] ∧ outputs.length = 1 ∧
          (dupsList app.used_outputs outputs).length = 1 ∧
          (outputs.map depStr)[0]? = (dupsList app.used_outputs outputs)[0]?)
    ∧ (pairwise_dup_check outputs = .ok () →
        prevent_duplicate_outputs app outputs = used_outputs_check app outputs) := by
  refine ⟨used_outputs_check_ok_iff app outputs,
    used_outputs_check_cases app outputs,
    used_outputs_check_single_iff app outputs, ?_⟩
  intro h
  unfold prevent_duplicate_outputs
  rw [h]
  rfl

/-! ## Claims C4 and C5: string-id validation -/

theorem filter_invalid_chars_ne_nil {s : String}
    (hbad : strContainsChar s '.' = true ∨ strContainsChar s '\x7b' = true) :
    (invalid_chars.filter fun c => strContainsChar s c) ≠ [] := by
  intro hnil
  rw [List.filter_eq_nil_iff] at hnil
  rcases hbad with h | h
  · exact absurd h (by simpa using hnil '.' (by simp [invalid_chars]))
  · exact absurd h (by simpa using hnil '\x7b' (by simp [invalid_chars]))

/-- Claim C4 counterexample: With id-validation suppressed (and even with no
layout at all), a callback whose output id contains a `.` still makes
`validate_callback` fail with `InvalidComponentId`: the forbidden-character
check is not gated by the id-validation flag. -/
theorem claim4_counterexample :
    validate_callback ⟨true, []⟩ none (.single ⟨.literal "a.b", "children"⟩)
        [⟨.literal "in1", "value"⟩] []
      = .error (.verr .InvalidComponentId) := rfl

/-- Claim C4 amended: For a dependency with a string id containing a `.` or a
left-brace character, `validate_id_string` fails with `InvalidComponentId`
unconditionally — for either value of the id-validation flag and any
layout. -/
theorem claim4_invalid_chars_unconditional (s p : String)
    (layout : Option LTree) (validate_ids : Bool)
    (hbad : strContainsChar s '.' = true ∨ strContainsChar s '\x7b' = true) :
    validate_id_string ⟨.literal s, p⟩ layout validate_ids
      = .error (.verr .InvalidComponentId) := by
  have hne : ((invalid_chars.filter fun c => strContainsChar s c).isEmpty) = false := by
    cases hl : (invalid_chars.filter fun c => strContainsChar s c).isEmpty with
    | false => rfl
    | true =>
        exact absurd (List.isEmpty_iff.mp hl) (filter_invalid_chars_ne_nil hbad)
  simp [validate_id_string, hne]

/-- Claim C5: For a dependency whose string id contains neither `.` nor a
left-brace: with id-validation enabled, if the id is neither a key of the
layout tree nor the root's id, `validate_id_string` fails with
`NonExistentId`; with id-validation suppressed it returns normally (so in
particular raises no `NonExistentId`). -/
theorem claim5_nonexistent_literal_id (s p : String) (lt : LTree)
    (layout : Option LTree)
    (hdot : strContainsChar s '.' = false)
    (hbrace : strContainsChar s '\x7b' = false) :
    (layoutContains lt s = false → lt.comp.id ≠ some (.str s) →
      validate_id_string ⟨.literal s, p⟩ (some lt) true
        = .error (.verr .NonExistentId))
    ∧ validate_id_string ⟨.literal s, p⟩ layout false = .ok () := by
  have hemp : ((invalid_chars.filter fun c => strContainsChar s c).isEmpty) = true := by
    simp [invalid_chars, hdot, hbrace]
  constructor
  · intro hcont htop
    have htopb : (lt.comp.id == some (ConcreteId.str s)) = false :=
      beq_eq_false_iff_ne.mpr htop
    simp [validate_id_string, hemp, hcont, htopb]
  · simp [validate_id_string, hemp]

/-- A sample layout: a root with one child of id `btn`. -/
def sampleLayout : LTree :=
  .node ⟨some (.str "root"), ["children"], []⟩
    [.node ⟨some (.str "btn"), ["n_clicks", "children"], []⟩ []]

theorem claim4_invalid_chars_unconditional_witness :
    validate_id_string ⟨.literal "x\x7by", "children"⟩ (some sampleLayout) true
      = .error (.verr .InvalidComponentId) :=
  claim4_invalid_chars_unconditional "x\x7by" "children" (some sampleLayout)
    true (.inr rfl)

theorem claim5_nonexistent_literal_id_witness :
    validate_id_string ⟨.literal "ghost", "value"⟩ (some sampleLayout) true
        = .error (.verr .NonExistentId)
    ∧ validate_id_string ⟨.literal "ghost", "value"⟩ (some sampleLayout) false
        = .ok () :=
  ⟨(claim5_nonexistent_literal_id "ghost" "value" sampleLayout
      (some sampleLayout) rfl rfl).1 rfl (by decide),
    (claim5_nonexistent_literal_id "ghost" "value" sampleLayout
      (some sampleLayout) rfl rfl).2⟩

/-! ## Claim C7: multi-output return shape -/

/-- Stated from the spec's words: the returned value is a list or tuple whose
length equals the declared output count, and each returned element aligned
with a grouped declared output is itself a list or tuple of exactly the
group's length. -/
def spec_multi_return_ok (outputs_list : List OutItem) (output_value : PyVal) :
    Prop :=
  ∃ vs, pyIsSeq output_value = some vs ∧ vs.length = outputs_list.length ∧
    List.Forall₂ (fun oi vi => ∀ ds, oi = OutItem.grouped ds →
      ∃ ws, pyIsSeq vi = some ws ∧ ws.length = ds.length) outputs_list vs

theorem multi_return_items_ok_iff :
    ∀ (ol : List OutItem) (vs : List PyVal), vs.length = ol.length →
      (multi_return_items ol vs = .ok () ↔
        List.Forall₂ (fun oi vi => ∀ ds, oi = OutItem.grouped ds →
          ∃ ws, pyIsSeq vi = some ws ∧ ws.length = ds.length) ol vs) := by
  intro ol
  induction ol with
  | nil =>
      intro vs hlen
      have hnil : vs = [] := List.length_eq_zero.mp (by simpa using hlen)
      subst hnil
      simp [multi_return_items]
  | cons oi rest ih =>
      intro vs hlen
      cases vs with
      | nil => simp at hlen
      | cons v vrest =>
          have hlen' : vrest.length = rest.length := by simpa using hlen
          cases oi with
          | single d =>
              simp only [multi_return_items]
              rw [ih vrest hlen', List.forall₂_cons]
              constructor
              · intro h
                refine ⟨?_, h⟩
                intro ds hds
                cases hds
              · exact And.right
          | grouped ds =>
              cases hs : pyIsSeq v with
              | none =>
                  simp only [multi_return_items, hs, List.forall₂_cons]
                  constructor
                  · intro h; cases h
                  · rintro ⟨h1, _⟩
                    obtain ⟨ws, hws, _⟩ := h1 ds rfl
                    cases hws
              | some ws =>
                  simp only [multi_return_items, hs]
                  by_cases hlw : ws.length = ds.length
                  · have hb : (ws.length != ds.length) = false := by simp [hlw]
                    rw [hb]
                    simp only [Bool.false_eq_true, if_false]
                    rw [ih vrest hlen', List.forall₂_cons]
                    constructor
                    · intro h
                      refine ⟨fun ds1 hds1 => ?_, h⟩
                      obtain rfl : ds = ds1 := by
                        cases hds1
                        rfl
                      exact ⟨ws, hs, hlw⟩
                    · exact And.right
                  · have hb : (ws.length != ds.length) = true := by
                      simpa using hlw
                    rw [hb]
                    simp only [if_true, List.forall₂_cons]
                    constructor
                    · intro h; cases h
                    · rintro ⟨h1, _⟩
                      obtain ⟨ws1, hws1, hl1⟩ := h1 ds rfl
                      obtain rfl : ws = ws1 := Option.some.inj (hs.symm.trans hws1)
                      exact absurd hl1 hlw

theorem multi_return_items_error :
    ∀ (ol : List OutItem) (vs : List PyVal) (e : PyErr),
      multi_return_items ol vs = .error e →
        ∃ f, e = .verr (.InvalidCallbackReturnValue f) := by
  intro ol
  induction ol with
  | nil => intro vs e h; cases h
  | cons oi rest ih =>
      intro vs e h
      cases vs with
      | nil => cases oi <;> cases h
      | cons v vrest =>
          cases oi with
          | single d => exact ih vrest e h
          | grouped ds =>
              cases hs : pyIsSeq v with
              | none =>
                  simp only [multi_return_items, hs] at h
                  exact ⟨.groupedNotList, (Except.error.inj h).symm⟩
              | some ws =>
                  simp only [multi_return_items, hs] at h
                  by_cases hb : (ws.length != ds.length) = true
                  · rw [if_pos hb] at h
                    exact ⟨.groupedWrongLength, (Except.error.inj h).symm⟩
                  · rw [if_neg hb] at h
                    exact ih vrest e h

theorem validate_multi_return_none {output_value : PyVal}
    (hs : pyIsSeq output_value = none) (ol : List OutItem) (cb : String) :
    validate_multi_return ol output_value cb
      = .error (.verr (.InvalidCallbackReturnValue .notListTop)) := by
  unfold validate_multi_return
  rw [hs]

theorem validate_multi_return_some {output_value : PyVal} {vs : List PyVal}
    (hs : pyIsSeq output_value = some vs) (ol : List OutItem) (cb : String) :
    validate_multi_return ol output_value cb
      = if vs.length != ol.length then
          .error (.verr (.InvalidCallbackReturnValue .wrongLength))
        else multi_return_items ol vs := by
  unfold validate_multi_return
  rw [hs]

/-- Claim C7: `validate_multi_return` returns normally exactly when the
returned value is a list or tuple of the declared output count whose elements
aligned with grouped declared outputs are lists or tuples of exactly the
group's length; every failure it raises is an `InvalidCallbackReturnValue`. -/
theorem claim7_validate_multi_return (outputs_list : List OutItem)
    (output_value : PyVal) (cb : String) :
    (validate_multi_return outputs_list output_value cb = .ok () ↔
      spec_multi_return_ok outputs_list output_value)
    ∧ (∀ e, validate_multi_return outputs_list output_value cb = .error e →
        ∃ f, e = .verr (.InvalidCallbackReturnValue f)) := by
  constructor
  · unfold spec_multi_return_ok
    cases hs : pyIsSeq output_value with
    | none =>
        rw [validate_multi_return_none hs]
        constructor
        · intro h; cases h
        · rintro ⟨vs, hvs, _⟩
          cases hvs
    | some vs =>
        rw [validate_multi_return_some hs]
        by_cases hlen : vs.length = outputs_list.length
        · have hb : (vs.length != outputs_list.length) = false := by simp [hlen]
          rw [hb]
          simp only [Bool.false_eq_true, if_false]
          rw [multi_return_items_ok_iff outputs_list vs hlen]
          constructor
          · intro h
            exact ⟨vs, rfl, hlen, h⟩
          · rintro ⟨vs1, hvs1, _, hf⟩
            obtain rfl : vs = vs1 := Option.some.inj hvs1
            exact hf
        · have hb : (vs.length != outputs_list.length) = true := by simpa using hlen
          rw [hb]
          simp only [if_true]
          constructor
          · intro h; cases h
          · rintro ⟨vs1, hvs1, hl1, _⟩
            obtain rfl : vs = vs1 := Option.some.inj hvs1
            exact absurd hl1 hlen
  · intro e h
    cases hs : pyIsSeq output_value with
    | none =>
        rw [validate_multi_return_none hs] at h
        exact ⟨.notListTop, (Except.error.inj h).symm⟩
    | some vs =>
        rw [validate_multi_return_some hs] at h
        by_cases hb : (vs.length != outputs_list.length) = true
        · rw [if_pos hb] at h
          exact ⟨.wrongLength, (Except.error.inj h).symm⟩
        · rw [if_neg hb] at h
          exact multi_return_items_error outputs_list vs e h

/-- The declared outputs of the spec's multi-output example: three positions,
the middle one grouped with two sub-outputs. -/
def outputsListC7 : List OutItem :=
  [.single ⟨.literal "s1", "children"⟩,
    .grouped [⟨.literal "g1", "children"⟩, ⟨.literal "g2", "children"⟩],
    .single ⟨.literal "s2", "children"⟩]

/-- A returned value matching `outputsListC7`. -/
def returnValueC7 : PyVal :=
  .plist [.pstr "a", .plist [.pstr "b", .pstr "c"], .pnone]

theorem claim7_validate_multi_return_witness :
    spec_multi_return_ok outputsListC7 returnValueC7 :=
  (claim7_validate_multi_return outputsListC7 returnValueC7 "cb1").1.mp rfl

/-! ## Claim C8: fail_callback_output never returns -/

/-- Claim C8: `fail_callback_output` never returns normally: on every returned
value it raises an `InvalidCallbackReturnValue`, either the directed message
(when the directed traversal finds an invalid value) or the generic "not JSON
serializable" message (exactly when it does not). -/
theorem claim8_fail_callback_output (v : PyVal) (out : Dependency) :
    (∀ u : Unit, fail_callback_output v out ≠ .ok u)
    ∧ (fail_callback_output v out
          = .error (.verr (.InvalidCallbackReturnValue .directed)) ∨
        fail_callback_output v out
          = .error (.verr (.InvalidCallbackReturnValue .genericJson)))
    ∧ (fail_callback_output v out
          = .error (.verr (.InvalidCallbackReturnValue .genericJson)) ↔
        fail_raised v = false) := by
  unfold fail_callback_output
  by_cases h : fail_raised v = true
  · rw [if_pos h]
    refine ⟨fun u hu => ?_, .inl rfl,
      ⟨fun hg => by simp at hg, fun hf => by rw [hf] at h; cases h⟩⟩
    cases hu
  · rw [if_neg h]
    refine ⟨fun u hu => ?_, .inr rfl,
      ⟨fun _ => by simpa using h, fun _ => rfl⟩⟩
    cases hu

theorem claim8_fail_callback_output_witness :
    (∀ u : Unit, fail_callback_output (.other "function")
        ⟨.literal "o", "children"⟩ ≠ .ok u)
    ∧ (fail_callback_output (.other "function") ⟨.literal "o", "children"⟩
          = .error (.verr (.InvalidCallbackReturnValue .directed)) ∨
        fail_callback_output (.other "function") ⟨.literal "o", "children"⟩
          = .error (.verr (.InvalidCallbackReturnValue .genericJson)))
    ∧ (fail_callback_output (.other "function") ⟨.literal "o", "children"⟩
          = .error (.verr (.InvalidCallbackReturnValue .genericJson)) ↔
        fail_raised (.other "function") = false) :=
  claim8_fail_callback_output (.other "function") ⟨.literal "o", "children"⟩

/-! ## Claim C9: duplicate layout ids -/

theorem check_duplicate_ids_cases (xs : List String) :
    ∀ seen, check_duplicate_ids xs seen = .ok () ∨
      check_duplicate_ids xs seen = .error (.verr .DuplicateIdError) := by
  induction xs with
  | nil => intro seen; exact .inl rfl
  | cons c rest ih =>
      intro seen
      simp only [check_duplicate_ids]
      by_cases h : (c != "" && seen.contains c) = true
      · rw [if_pos h]; exact .inr rfl
      · rw [if_neg h]; exact ih _

theorem check_duplicate_ids_ok_iff (xs : List String) :
    ∀ seen, check_duplicate_ids xs seen = .ok () ↔
      ((xs.filter fun s => s != "").Nodup ∧
        ∀ s ∈ xs, s ≠ "" → s ∉ seen) := by
  induction xs with
  | nil => intro seen; simp [check_duplicate_ids]
  | cons c rest ih =>
      intro seen
      simp only [check_duplicate_ids]
      by_cases hc : (c != "" && seen.contains c) = true
      · rw [if_pos hc]
        have hcne : (c != "") = true := by
          cases hb : (c != "") with
          | true => rfl
          | false => rw [hb] at hc; simp at hc
        have hcm : seen.contains c = true := by
          cases hb : seen.contains c with
          | true => rfl
          | false => rw [hb] at hc; simp at hc
        have hcmem : c ∈ seen := by
          simpa [List.contains_iff_exists_mem_beq, beq_iff_eq] using hcm
        constructor
        · intro h; cases h
        · rintro ⟨_, h2⟩
          exact absurd hcmem
            (h2 c (List.mem_cons_self _ _) (bne_iff_ne.mp hcne))
      · rw [if_neg hc]
        rw [ih (c :: seen)]
        by_cases hce : c = ""
        · subst hce
          have hfil : (("" :: rest).filter fun s => s != "")
              = rest.filter fun s => s != "" := by simp
          rw [hfil]
          constructor
          · rintro ⟨h1, h2⟩
            refine ⟨h1, ?_⟩
            intro s hs hsne
            rcases List.mem_cons.mp hs with rfl | hs
            · exact absurd rfl hsne
            · intro hmem
              exact h2 s hs hsne (List.mem_cons_of_mem _ hmem)
          · rintro ⟨h1, h2⟩
            refine ⟨h1, ?_⟩
            intro s hs hsne hmem
            rcases List.mem_cons.mp hmem with rfl | hmem
            · exact hsne rfl
            · exact h2 s (List.mem_cons_of_mem _ hs) hsne hmem
        · have hcb : (c != "") = true := bne_iff_ne.mpr hce
          have hcnot : c ∉ seen := by
            intro hmem
            have hconta : seen.contains c = true :=
              List.contains_iff_exists_mem_beq.mpr ⟨c, hmem, by simp⟩
            exact hc (by rw [hcb, hconta]; rfl)
          have hfil : ((c :: rest).filter fun s => s != "")
              = c :: (rest.filter fun s => s != "") := by
            simp [List.filter_cons, hcb]
          rw [hfil]
          rw [List.nodup_cons]
          constructor
          · rintro ⟨h1, h2⟩
            refine ⟨⟨?_, h1⟩, ?_⟩
            · intro hcf
              have hcr : c ∈ rest := (List.mem_filter.mp hcf).1
              exact h2 c hcr hce (List.mem_cons_self _ _)
            · intro s hs hsne
              rcases List.mem_cons.mp hs with rfl | hs
              · exact hcnot
              · intro hmem
                exact h2 s hs hsne (List.mem_cons_of_mem _ hmem)
          · rintro ⟨⟨hcf, h1⟩, h2⟩
            refine ⟨h1, ?_⟩
            intro s hs hsne hmem
            rcases List.mem_cons.mp hmem with rfl | hmem
            · exact hcf (List.mem_filter.mpr ⟨hs, bne_iff_ne.mpr hsne⟩)
            · exact h2 s (List.mem_cons_of_mem _ hs) hsne hmem

/-- Claim C9: `validate_layout` (with a defined layout) fails with
`DuplicateIdError` exactly when some non-empty stringified id occurs at two
different positions of the sequence formed by the root's stringified id
followed by the stringified ids of the full traversal, and returns normally
exactly when that sequence has no duplicate non-empty entry. -/
theorem claim9_duplicate_layout_ids (t : LTree) :
    (validate_layout (some t) t = .error (.verr .DuplicateIdError) ↔
      ¬ spec_no_duplicate_ids t)
    ∧ (validate_layout (some t) t = .ok () ↔ spec_no_duplicate_ids t) := by
  have hok : validate_layout (some t) t = .ok () ↔ spec_no_duplicate_ids t := by
    show check_duplicate_ids _ _ = .ok () ↔ _
    rw [check_duplicate_ids_ok_iff]
    unfold spec_no_duplicate_ids layout_id_sequence
    by_cases hr : stringify_id t.comp.id = ""
    · rw [hr]
      have hinit : ((("" : String) != "") = true) = False := by simp
      simp only [List.filter_cons, bne_self_eq_false, Bool.false_eq_true,
        if_false, hinit]
      constructor
      · rintro ⟨h1, _⟩; exact h1
      · intro h1
        refine ⟨h1, ?_⟩
        intro s _ hsne hmem
        exact absurd hmem (List.not_mem_nil s)
    · have hrb : (stringify_id t.comp.id != "") = true := bne_iff_ne.mpr hr
      simp only [List.filter_cons, hrb, if_true, List.nodup_cons]
      constructor
      · rintro ⟨h1, h2⟩
        refine ⟨?_, h1⟩
        intro hmem
        obtain ⟨hmem1, _⟩ := List.mem_filter.mp hmem
        exact h2 _ hmem1 hr (List.mem_singleton.mpr rfl)
      · rintro ⟨hnm, h1⟩
        refine ⟨h1, ?_⟩
        intro s hs hsne hmem
        obtain rfl : s = stringify_id t.comp.id := List.mem_singleton.mp hmem
        exact hnm (List.mem_filter.mpr ⟨hs, bne_iff_ne.mpr hsne⟩)
  have hcases := check_duplicate_ids_cases
    ((t.traverse.map fun c => stringify_id c.comp.id))
    (if stringify_id t.comp.id != "" then [stringify_id t.comp.id] else [])
  constructor
  · constructor
    · intro herr
      intro hspec
      have := hok.mpr hspec
      rw [this] at herr
      cases herr
    · intro hspec
      rcases hcases with h | h
      · exact absurd (hok.mp h) hspec
      · exact h
  · exact hok

/-- A layout with a duplicated id `a`. -/
def dupLayout : LTree :=
  .node ⟨some (.str "a"), ["children"], []⟩
    [.node ⟨some (.str "a"), ["children"], []⟩ []]

theorem claim9_duplicate_layout_ids_witness :
    validate_layout (some dupLayout) dupLayout
      = .error (.verr .DuplicateIdError) :=
  (claim9_duplicate_layout_ids dupLayout).1.mpr (by
    unfold spec_no_duplicate_ids layout_id_sequence
    decide)

/-! ## Claim C10: empty multi-output -/

theorem prevent_input_output_overlap_nil_outputs (inputs : List Dependency) :
    prevent_input_output_overlap inputs [] = .ok () := by
  induction inputs with
  | nil => rfl
  | cons i rest ih =>
      simp only [prevent_input_output_overlap, List.find?_nil]
      exact ih

/-- Claim C10 counterexample: An empty declared output list with a non-empty
input list and a passing layout precondition can still fail with a named
validation error: an input whose literal id is absent from the layout raises
`NonExistentId` before the wildcard-consistency step is ever reached. -/
theorem claim10_counterexample :
    validate_callback ⟨false, []⟩ (some sampleLayout) (.multi [])
        [⟨.literal "ghost", "value"⟩] []
      = .error (.verr .NonExistentId) := rfl

/-- Claim C10 amended: When the declared output is an empty list, the inputs
are non-empty and pass the per-dependency checks, the state passes the
per-dependency checks, and the layout precondition passes, `validate_callback`
fails with no named validation error: it reaches
`prevent_inconsistent_wildcards`, whose `outputs[0]` access on the empty list
escapes the error taxonomy as a raw IndexError. -/
theorem claim10_empty_multi_output (app : AppState) (layout : Option LTree)
    (inputs state : List Dependency)
    (hlayout : layout.isSome = true ∨ app.suppress_callback_exceptions = true)
    (hin : inputs ≠ [])
    (hargsIn : validate_callback_args inputs .input layout
      (!app.suppress_callback_exceptions) = .ok ())
    (hargsSt : validate_callback_args state .state layout
      (!app.suppress_callback_exceptions) = .ok ()) :
    validate_callback app layout (.multi []) inputs state = .error .indexError
    ∧ ∀ e : VErr,
        validate_callback app layout (.multi []) inputs state
          ≠ .error (.verr e) := by
  have hmain : validate_callback app layout (.multi []) inputs state
      = .error .indexError := by
    simp only [validate_callback]
    have hcond : (layout.isNone && !app.suppress_callback_exceptions) = false := by
      rcases hlayout with h | h
      · cases layout with
        | none => simp at h
        | some lt => rfl
      · rw [h]
        simp
    rw [hcond]
    simp only [Bool.false_eq_true, if_false]
    have hinb : inputs.isEmpty = false := by
      cases inputs with
      | nil => exact absurd rfl hin
      | cons i rest => rfl
    rw [hinb]
    simp only [Bool.false_eq_true, if_false]
    show exSeq (validate_callback_args []
        .output layout (!app.suppress_callback_exceptions)) _ = _
    rw [show validate_callback_args [] DepKind.output layout
        (!app.suppress_callback_exceptions) = .ok () from rfl, exSeq_ok,
      hargsIn, exSeq_ok, hargsSt, exSeq_ok,
      show prevent_duplicate_outputs app [] = .ok () from rfl, exSeq_ok,
      prevent_input_output_overlap_nil_outputs inputs, exSeq_ok]
    rfl
  refine ⟨hmain, ?_⟩
  intro e h
  rw [hmain] at h
  simp at h

theorem claim10_empty_multi_output_witness :
    validate_callback ⟨true, []⟩ none (.multi [])
        [⟨.literal "x1", "value"⟩] [] = .error .indexError
    ∧ ∀ e : VErr,
        validate_callback ⟨true, []⟩ none (.multi [])
          [⟨.literal "x1", "value"⟩] [] ≠ .error (.verr e) :=
  claim10_empty_multi_output ⟨true, []⟩ none [⟨.literal "x1", "value"⟩] []
    (.inr rfl) (by simp) rfl rfl

/-! ## Remaining witnesses -/

/-- A sample wildcard output: `{"type": "x", "index": ANY}.children`. -/
def anyOut : Dependency :=
  ⟨.pattern [("type", .scalar (.s "x")), ("index", .wild .ANY)], "children"⟩

/-- A sample wildcard input on the same ANY key. -/
def anyIn : Dependency :=
  ⟨.pattern [("type", .scalar (.s "x")), ("index", .wild .ANY)], "value"⟩

theorem claim1_wildcard_consistency_witness :
    prevent_inconsistent_wildcards [anyOut] [anyIn] [] = .ok () :=
  (claim1_wildcard_consistency anyOut [] [anyIn] []).1.mpr (by
    constructor
    · intro out hout
      exact absurd hout (List.not_mem_nil out)
    · intro dep hdep
      have hd : dep = anyIn := by simpa using hdep
      subst hd
      decide)

theorem claim2_pairwise_duplicate_outputs_witness :
    ∃ a b l1 l2 l3,
      ([⟨.literal "o1", "children"⟩, ⟨.literal "o1", "children"⟩]
          : List Dependency)
        = l1 ++ a :: (l2 ++ b :: l3) ∧ depEq a b = true ∧
        PyErr.verr (.DuplicateCallbackOutput .sameOutput) = dup_pair_error a b :=
  (claim2_pairwise_duplicate_outputs
      [⟨.literal "o1", "children"⟩, ⟨.literal "o1", "children"⟩]).2.1
    (.verr (.DuplicateCallbackOutput .sameOutput)) rfl

theorem claim3_registered_duplicate_outputs_witness :
    used_outputs_check ⟨false, [⟨.literal "w1", "children"⟩]⟩
        [⟨.literal "w1", "children"⟩]
      = .error (.verr (.DuplicateCallbackOutput .singleAlreadyAssigned)) :=
  (claim3_registered_duplicate_outputs ⟨false, [⟨.literal "w1", "children"⟩]⟩
      [⟨.literal "w1", "children"⟩]).2.2.1.mpr
    ⟨by decide, rfl, rfl, rfl⟩

theorem claim6_input_output_overlap_witness :
    ∃ i ∈ ([⟨.literal "sync", "value"⟩] : List Dependency),
      ∃ o ∈ ([⟨.literal "sync", "value"⟩] : List Dependency),
        depEq o i = true ∧
          PyErr.verr (.SameInputOutput .exact) = sio_error o i :=
  (claim6_input_output_overlap [⟨.literal "sync", "value"⟩]
      [⟨.literal "sync", "value"⟩]).2.1
    (.verr (.SameInputOutput .exact)) rfl

end Dash
